import Mathlib

/-
Verification of `mws/utils/parsers.py`: the `DotDict` tree node, the
`XML2Dict` recursive XML-to-dict converter, `remove_xml_namespace`, and the
`DictWrapper` / `DataWrapper` response wrappers.

Python values flowing through the parser are modelled by `PyVal`
(strings, `DotDict` mappings as insertion-ordered association lists, and
Python lists).  Python `bytes` are modelled as `List Nat` (one entry per
byte), Python exceptions as `Except` / `Option` results.
-/

/-- Universe of runtime values stored inside a parsed tree: a Python `str`
(`pstr`), a `DotDict` (`pdot`, an insertion-ordered association list, which is
how CPython dicts behave), or a Python `list` (`plist`).  These are the only
shapes `XML2Dict._parse_node` produces or that the `DotDict` methods
scrutinise. -/
inductive PyVal where
  | pstr : String → PyVal
  | pdot : List (String × PyVal) → PyVal
  | plist : List PyVal → PyVal
deriving Repr

/-- Lookup in an insertion-ordered association list, mirroring Python
`dict.__getitem__` / `in` on the dicts built by the parser (which never hold
duplicate keys).  `none` models a `KeyError`. -/
def dlookup {α : Type} : List (String × α) → String → Option α
  | [], _ => none
  | (k, v) :: t, key => if k = key then some v else dlookup t key

/-- Python `dict.__setitem__`: replace the value in place if the key is
present (CPython keeps the key's position), otherwise append the new pair at
the end (insertion order). -/
def setItem (m : List (String × PyVal)) (key : String) (v : PyVal) : List (String × PyVal) :=
  match m with
  | [] => [(key, v)]
  | (k, w) :: t => if k = key then (key, v) :: t else (k, w) :: setItem t key v

/-- Python `dict.pop(key)`: remove the entry for `key` (first occurrence;
parser dicts have unique keys). -/
def popItem (m : List (String × PyVal)) (key : String) : List (String × PyVal) :=
  match m with
  | [] => []
  | (k, w) :: t => if k = key then t else (k, w) :: popItem t key

/-- Python `key in dict`. -/
def hasKey (m : List (String × PyVal)) (key : String) : Bool :=
  (dlookup m key).isSome

/-- Python `isinstance(v, list)`. -/
def PyVal.isList : PyVal → Bool
  | .plist _ => true
  | _ => false

/-- Embedding of `DotDict._value_or_node` combined with the `node["value"]`
read it performs.  Source:

    if isinstance(node, self.__class__) and "value" in node and len(node) == 1:
        return node["value"]
    return node

For a one-entry dict, `"value" in node and len(node) == 1` is equivalent to
the single key being `"value"`, hence the pattern below.  Crucially
`node["value"]` goes through `DotDict.__getitem__` again, so the unwrapping
re-applies to the inner value (full recursion, not one level). -/
def DotDict.valueOrNode : PyVal → PyVal
  | .pdot [(k, v)] => if k = "value" then DotDict.valueOrNode v else .pdot [(k, v)]
  | v => v

/-- Embedding of `DotDict.__getitem__`: fetch the stored value
(`dict.__getitem__`), then apply `_value_or_node`.  `none` models the
`KeyError` on a missing key. -/
def DotDict.getItem (m : List (String × PyVal)) (key : String) : Option PyVal :=
  (dlookup m key).map DotDict.valueOrNode

/-- Embedding of `DotDict.get`: like `__getitem__` but a missing key returns
the default. -/
def DotDict.getD (m : List (String × PyVal)) (key : String) (dflt : PyVal) : PyVal :=
  (DotDict.getItem m key).getD dflt

/-- Embedding of `DotDict.__iter__`.  Source:

    if not isinstance(self, list):
        return iter([self])
    return self

Called on a value: a list iterates as its elements, anything else (in
particular every `DotDict`, which is never a `list` instance) iterates as the
one-element sequence holding the value itself. -/
def DotDict.iter (self : PyVal) : List PyVal :=
  if self.isList then
    match self with
    | .plist l => l
    | v => [v]
  else [self]

/-- Embedding of the in-place `node_tree[tag].append(tree)` mutation: Python
first evaluates `node_tree[tag]` through `DotDict.__getitem__` — which
unwraps single-`value` dict wrappers — and appends to the list object that
read reaches.  Functionally, the append lands at the end of the unwrap
chain.  At every call site the code has just ensured that the read reaches a
list, so the non-list fallthrough (returning the value unchanged, where
Python would raise `AttributeError` on `.append`) is unreachable. -/
def appendInto (x : PyVal) : PyVal → PyVal
  | .plist l => .plist (l ++ [x])
  | .pdot [(k, v)] =>
      if k = "value" then .pdot [(k, appendInto x v)] else .pdot [(k, v)]
  | v => v

/-- Append `x` into the (list) value stored under `key`, modelling
`node_tree[tag].append(tree)`.  The key's position does not move (the list
object is mutated in place). -/
def appendAtKey (m : List (String × PyVal)) (key : String) (x : PyVal) : List (String × PyVal) :=
  match dlookup m key with
  | some v => setItem m key (appendInto x v)
  | none => m

mutual
/-- Mutual model of `xml.etree.ElementTree.Element` as handed to
`XML2Dict._parse_node`: tag, attributes in document order, text before the
first child (`none` when absent or empty, as in ElementTree), and child
elements in document order.  Tail text is omitted because `_parse_node`
never reads `.tail`.  A mutual (rather than nested) inductive is used so
that the parser below is structurally recursive. -/
inductive XElem where
  | mk : String → List (String × String) → Option String → XElemList → XElem
inductive XElemList where
  | nil : XElemList
  | cons : XElem → XElemList → XElemList
end

/-- Tag accessor for `XElem`. -/
def XElem.tag : XElem → String
  | .mk t _ _ _ => t

/-- Characters treated as whitespace by Python `str.strip()`. -/
def isPySpace (c : Char) : Bool :=
  c = ' ' || c = '\t' || c = '\n' || c = '\r' || c = '\x0b' || c = '\x0c'

/-- Truthiness of `node.text and node.text.strip()`: the text is non-`None`
and contains at least one non-whitespace character. -/
def stripNonempty (s : String) : Bool :=
  s.toList.any (fun c => !isPySpace c)

/-- Chars remaining after the first `'\x7b'` of the tag, or `none` when the
tag has no opening brace. -/
def afterFirstBrace : List Char → Option (List Char)
  | [] => none
  | c :: t => if c = '\x7b' then some t else afterFirstBrace t

/-- Split at the last `'\x7d'`: returns (chars before it, chars after it),
or `none` when no closing brace occurs. -/
def splitAtLastClose (cs : List Char) : Option (List Char × List Char) :=
  match cs with
  | [] => none
  | c :: t =>
    match splitAtLastClose t with
    | some (b, a) => some (c :: b, a)
    | none => if c = '\x7d' then some ([], t) else none

/-- Embedding of `re.compile(r"\x7b(.*)\x7d(.*)").search(tag)` as used by
`XML2Dict._namespace_split`: an (unanchored) match exists iff some opening
brace is followed by a closing brace; group 1 then runs from the first such
opening brace to the last closing brace (greedy `.*`), group 2 is the rest
of the string.  Returns `some (namespace, local_tag)`. -/
def nsSplit (tag : String) : Option (String × String) :=
  match afterFirstBrace tag.toList with
  | some rest =>
    match splitAtLastClose rest with
    | some (ns, t) => some (ns.asString, t.asString)
    | none => none
  | none => none

/-- Embedding of `XML2Dict._namespace_split(tag, value)`: when the tag
carries a `\x7bnamespace\x7dlocal` wrapper, record the namespace URI under a
`namespace` key of `value` (appended after the existing keys, as
`value.namespace = ns` does on a fresh dict) and return the local tag. -/
def XML2Dict.namespace_split (tag : String) (value : List (String × PyVal)) :
    String × List (String × PyVal) :=
  match nsSplit tag with
  | some (ns, t) => (t, setItem value "namespace" (.pstr ns))
  | none => (tag, value)

/-- The local name `_namespace_split` files a tag or attribute under: the
part after the `\x7buri\x7d` wrapper when one is present, the tag itself
otherwise.  It depends only on the tag, not on the value argument. -/
def localName (tag : String) : String :=
  match nsSplit tag with
  | some (_, t) => t
  | none => tag

/-- Lines 101-104 of `_parse_node`: seed the node tree with a `value` key
holding the raw (unstripped) text when the text is truthy and strips to a
truthy string. -/
def textTree : Option String → List (String × PyVal)
  | some t => if stripNonempty t then [("value", .pstr t)] else []
  | none => []

/-- Lines 105-108 of `_parse_node`: fold the attributes, in document order,
into the node tree.  Each value is wrapped as `DotDict({"value": val})`
before the namespace split, then stored under the (namespace-stripped)
attribute name. -/
def attrFold (init : List (String × PyVal)) (attrib : List (String × String)) :
    List (String × PyVal) :=
  attrib.foldl
    (fun acc kv =>
      let p := XML2Dict.namespace_split kv.1 [("value", .pstr kv.2)]
      setItem acc p.1 (.pdot p.2))
    init

/-- The node tree of `_parse_node` just before the child loop: text seed,
then attributes folded in. -/
def preChildTree (attrib : List (String × String)) (text : Option String) :
    List (String × PyVal) :=
  attrFold (textTree text) attrib

/-- One iteration of the child loop of `_parse_node` (lines 110-119), for a
child whose namespace-split tag is `tag` and parsed tree is `tree`:

    if tag not in node_tree:  # the first time, so store it in dict
        node_tree[tag] = tree
        continue
    old = node_tree[tag]
    if not isinstance(old, list):
        node_tree.pop(tag)
        node_tree[tag] = [old]  # multi times, so change old dict to a list
    node_tree[tag].append(tree)  # add the new one

Note `old = node_tree[tag]` reads through `DotDict.__getitem__`, so `old` is
the single-`value`-collapsed view of the stored value, and it is `old` — not
the stored value — that is promoted into the list. -/
def foldChild (node_tree : List (String × PyVal)) (tag : String)
    (tree : List (String × PyVal)) : List (String × PyVal) :=
  if hasKey node_tree tag then
    match DotDict.getItem node_tree tag with
    | some old =>
        let nt := if old.isList then node_tree
                  else setItem (popItem node_tree tag) tag (.plist [old])
        appendAtKey nt tag (.pdot tree)
    | none => node_tree
  else setItem node_tree tag (.pdot tree)

/-- The child loop of `_parse_node`: fold the (already namespace-split and
parsed) children, in document order, into the node tree. -/
def childFold (acc : List (String × PyVal))
    (cts : List (String × List (String × PyVal))) : List (String × PyVal) :=
  cts.foldl (fun a ct => foldChild a ct.1 ct.2) acc

mutual
/-- Embedding of `XML2Dict._parse_node`: text seed, attribute fold, then the
child loop.  (The recursive calls on the children are gathered first by
`parseChildren`; since the function is pure this is the same evaluation the
Python loop performs.) -/
def XML2Dict.parse_node : XElem → List (String × PyVal)
  | .mk _ attrib text children =>
      childFold (preChildTree attrib text) (parseChildren children)

/-- The per-child prefix of the loop body:
`tag, tree = self._namespace_split(child.tag, self._parse_node(child))`,
collected in document order. -/
def parseChildren : XElemList → List (String × List (String × PyVal))
  | .nil => []
  | .cons c t => XML2Dict.namespace_split c.tag (XML2Dict.parse_node c) :: parseChildren t
end

/-- Literal-prefix matcher: `matchLit pat cs` returns the remainder of `cs`
after `pat` when `pat` is a prefix, else `none`. -/
def matchLit : List Char → List Char → Option (List Char)
  | [], cs => some cs
  | _ :: _, [] => none
  | l :: lt, c :: ct => if c = l then matchLit lt ct else none

/-- Scan to the first `'"'` and return the remainder after it. -/
def skipToQuote : List Char → Option (List Char)
  | [] => none
  | c :: t => if c = '"' then some t else skipToQuote t

/-- Matcher for the regex piece `[^"]+"`: at least one non-quote character,
then the closing quote (the greedy run necessarily stops at the first
quote). -/
def matchQuoted : List Char → Option (List Char)
  | [] => none
  | c :: t => if c = '"' then none else skipToQuote t

/-- Matcher for the first alternative ` xmlns(:ns2)?="[^"]+"` of the
`remove_xml_namespace` regex, with the regex backtracking over the optional
`:ns2` group: prefer consuming `:ns2`, and if the rest then fails retry
without it. -/
def matchDecl (cs : List Char) : Option (List Char) :=
  match matchLit " xmlns".toList cs with
  | none => none
  | some r =>
    match matchLit ":ns2".toList r with
    | some r1 =>
      match matchLit "=\"".toList r1 with
      | some r2 => matchQuoted r2
      | none =>
        match matchLit "=\"".toList r with
        | some r2 => matchQuoted r2
        | none => none
    | none =>
      match matchLit "=\"".toList r with
      | some r2 => matchQuoted r2
      | none => none

/-- Left-to-right scan of `regex.sub("", xml)` for the pattern
` xmlns(:ns2)?="[^"]+"|(ns2:)|(xml:)`: at each position try the alternatives
in order, deleting a match and resuming after it, otherwise keep the
character.  Fuel is the input length; every step consumes at least one
character, so the fuel never runs out on the initial call. -/
def removeAux : Nat → List Char → List Char
  | 0, cs => cs
  | fuel + 1, cs =>
    match cs with
    | [] => []
    | c :: t =>
      match matchDecl cs with
      | some r => removeAux fuel r
      | none =>
        match matchLit "ns2:".toList cs with
        | some r => removeAux fuel r
        | none =>
          match matchLit "xml:".toList cs with
          | some r => removeAux fuel r
          | none => c :: removeAux fuel t

/-- Embedding of `remove_xml_namespace`. -/
def remove_xml_namespace (xml : String) : String :=
  (removeAux xml.length xml.toList).asString

/-- Modelled from the spec: `xml.etree.ElementTree` is outside this
repository, so element names accept any run of characters other than the
XML delimiters. -/
def isNameChar (c : Char) : Bool :=
  !(c = '<' || c = '>' || c = '/' || c = '=' || c = '"' || isPySpace c)

/-- Longest name prefix and the remainder. -/
def takeName (cs : List Char) : List Char × List Char :=
  (cs.takeWhile isNameChar, cs.dropWhile isNameChar)

/-- Character data up to the next `'<'`, and the remainder. -/
def takeText (cs : List Char) : List Char × List Char :=
  (cs.takeWhile (fun c => !(c = '<')), cs.dropWhile (fun c => !(c = '<')))

/-- Modelled from the spec: attribute-list parsing of
`xml.etree.ElementTree.fromstring` (stdlib, outside this repository) —
whitespace-separated `name="value"` pairs in document order, ending at `>`
or `/`. -/
def parseAttrs : Nat → List Char → Option (List (String × String) × List Char)
  | 0, _ => none
  | fuel + 1, cs =>
    let cs' := cs.dropWhile isPySpace
    match cs' with
    | [] => none
    | '>' :: _ => some ([], cs')
    | '/' :: _ => some ([], cs')
    | _ =>
      match takeName cs' with
      | ([], _) => none
      | (n, r1) =>
        match r1 with
        | '=' :: '"' :: r2 =>
          let v := r2.takeWhile (fun c => !(c = '"'))
          match r2.dropWhile (fun c => !(c = '"')) with
          | '"' :: r3 =>
            match parseAttrs fuel r3 with
            | some (attrs, r4) => some ((n.asString, v.asString) :: attrs, r4)
            | none => none
          | _ => none
        | _ => none

mutual
/-- Modelled from the spec: element parsing of
`xml.etree.ElementTree.fromstring` (stdlib, outside this repository) for the
namespace-free fragment reaching `XML2Dict.fromstring` — an open tag with
attributes, the text before the first child, child elements with their tail
text skipped (the tree parser never reads tails), and the matching close
tag; or a self-closed element.  A failure (`none`) models `ET.ParseError`. -/
def parseElem : Nat → List Char → Option (XElem × List Char)
  | 0, _ => none
  | fuel + 1, cs =>
    match cs with
    | '<' :: rest =>
      match takeName rest with
      | ([], _) => none
      | (name, r1) =>
        match parseAttrs fuel r1 with
        | some (attrs, r2) =>
          match r2 with
          | '>' :: r3 =>
            match takeText r3 with
            | (txt, r4) =>
              match parseContent fuel r4 name.asString with
              | some (children, r5) =>
                some (.mk name.asString attrs
                        (if txt.isEmpty then none else some txt.asString) children, r5)
              | none => none
          | '/' :: '>' :: r3 => some (.mk name.asString attrs none .nil, r3)
          | _ => none
        | none => none
    | _ => none

/-- Modelled from the spec: the element-content loop of
`xml.etree.ElementTree.fromstring` — child elements until the matching close
tag, skipping tail text. -/
def parseContent : Nat → List Char → String → Option (XElemList × List Char)
  | 0, _, _ => none
  | fuel + 1, cs, tag =>
    match cs with
    | '<' :: '/' :: rest =>
      match takeName rest with
      | (n, '>' :: r2) => if n.asString = tag then some (.nil, r2) else none
      | _ => none
    | '<' :: _ =>
      match parseElem fuel cs with
      | some (child, r1) =>
        match takeText r1 with
        | (_, r2) =>
          match parseContent fuel r2 tag with
          | some (cl, r3) => some (.cons child cl, r3)
          | none => none
      | none => none
    | _ => none
end

/-- Modelled from the spec: `xml.etree.ElementTree.fromstring` — parse one
root element and require only trailing whitespace after it.  `none` models
`ET.ParseError`, which `DictWrapper` lets propagate. -/
def etFromstring (s : String) : Option XElem :=
  match parseElem (2 * s.length + 2) s.toList with
  | some (e, rest) => if (rest.dropWhile isPySpace).isEmpty then some e else none
  | none => none

/-- Embedding of `XML2Dict.fromstring`: parse the string, namespace-split
the root tag, and wrap the result as `DotDict({root_tag: root_tree})`. -/
def XML2Dict.fromstring (s : String) : Option (List (String × PyVal)) :=
  match etFromstring s with
  | some e =>
    let p := XML2Dict.namespace_split e.tag (XML2Dict.parse_node e)
    some [(p.1, .pdot p.2)]
  | none => none

/-- Latin-1 (`iso-8859-1`) decoding of a byte string: every byte value maps
to the code point of the same number, so decoding is total — mirroring that
`bytes.decode("iso-8859-1")` never raises. -/
def decodeLatin1 (bs : List Nat) : String :=
  (bs.map (fun b => Char.ofNat (b % 256))).asString

/-- The decode step at the top of `DictWrapper.__init__`: bytes are decoded
with `iso-8859-1` (which, being total, never reaches the `except` handler),
text is passed through. -/
def decodedOf : Sum (List Nat) String → String
  | .inl bs => decodeLatin1 bs
  | .inr s => s

/-- State of a constructed `DictWrapper`.  The `original` field holds the
runtime value of `self._original`, which Python types dynamically as either
`bytes` (`Sum.inl`) or `str` (`Sum.inr`). -/
structure DictWrapper where
  original : Sum (List Nat) String
  response_dict : PyVal
  result_key : Option String

/-- Embedding of `DictWrapper.__init__`: bytes input is decoded with
`iso-8859-1` (total, see `decodeLatin1`) and the decoded string — not the
incoming bytes — is what `self._original = xml` stores; then the namespaces
are stripped, the document parsed, and `_response_dict` is set to
`self._mydict.get(list(self._mydict.keys())[0], self._mydict)`, a
`DotDict.get` read of the root key (which therefore single-`value`
collapses).  `none` models a propagated `ET.ParseError`; the empty-dict arm
of the inner match is unreachable since `fromstring` always yields a
one-entry dict. -/
def DictWrapper.init (xml : Sum (List Nat) String) (result_key : Option String) :
    Option DictWrapper :=
  let s : String := decodedOf xml
  match XML2Dict.fromstring (remove_xml_namespace s) with
  | some mydict =>
    let rd : PyVal :=
      match mydict with
      | (_, v) :: _ => DotDict.valueOrNode v
      | [] => .pdot mydict
    some ⟨.inr s, rd, result_key⟩
  | none => none

/-- State of a constructed `DataWrapper`: the raw payload bytes and the
response headers. -/
structure DataWrapper where
  original : List Nat
  headers : List (String × String)

/-- Embedding of `DataWrapper.__init__`.  `md5` stands for `calc_md5` from
`mws/utils/crypto.py` (not included under `src/`; per the spec it computes
the base64-encoded MD5 digest of the payload bytes) and `enc` for
`str.encode` on the header value; both enter only through the equality test
`self.headers["content-md5"].encode() != hash_`, so they are taken as
parameters.  A mismatch raises `MWSError("Wrong Content length, maybe
amazon error...")`, modelled as `Except.error` carrying the message. -/
def DataWrapper.init (md5 : List Nat → List Nat) (enc : String → List Nat)
    (data : List Nat) (headers : List (String × String)) : Except String DataWrapper :=
  match dlookup headers "content-md5" with
  | some declared =>
    if enc declared ≠ md5 data then
      .error "Wrong Content length, maybe amazon error..."
    else .ok ⟨data, headers⟩
  | none => .ok ⟨data, headers⟩

/-- Embedding of the `DataWrapper.parsed` property: the original bytes,
unchanged. -/
def DataWrapper.parsed (w : DataWrapper) : List Nat :=
  w.original

/-- Python exceptions escaping `DataWrapper.unzipped`: a `KeyError` from the
`self.headers["content-type"]` subscript, or an `MWSError` wrapping a failed
extraction. -/
inductive PyErr where
  | keyError : String → PyErr
  | mwsError : String → PyErr
deriving Repr, DecidableEq

/-- Embedding of the `DataWrapper.unzipped` property.  `extract` stands for
`ZipFile(BytesIO(self.original))` plus `extractall()` (stdlib `zipfile`,
outside this repository): it returns the archive handle of type `Z`, or the
message of whatever exception the extraction raised, which the code wraps as
`MWSError(str(exc))`.  A missing `content-type` header surfaces as the
`KeyError` of the subscript; any value other than `"application/zip"`
returns `None` (modelled `Option.none`). -/
def DataWrapper.unzipped {Z : Type} (w : DataWrapper)
    (extract : List Nat → Except String Z) : Except PyErr (Option Z) :=
  match dlookup w.headers "content-type" with
  | none => .error (.keyError "content-type")
  | some ct =>
    if ct = "application/zip" then
      match extract w.original with
      | .ok z => .ok (some z)
      | .error msg => .error (.mwsError msg)
    else .ok none

/-- Lookup after `setItem` at the written key yields the written value. -/
theorem dlookup_setItem_self (m : List (String × PyVal)) (k : String) (v : PyVal) :
    dlookup (setItem m k v) k = some v := by
  induction m with
  | nil => simp [setItem, dlookup]
  | cons p t ih =>
    obtain ⟨k', v'⟩ := p
    by_cases h : k' = k <;> simp [setItem, dlookup, h, ih]

/-- Lookup after `setItem` at a different key is unchanged. -/
theorem dlookup_setItem_ne (m : List (String × PyVal)) (k k' : String) (v : PyVal)
    (h : k' ≠ k) : dlookup (setItem m k v) k' = dlookup m k' := by
  have hk : k ≠ k' := Ne.symm h
  induction m with
  | nil => simp [setItem, dlookup, hk]
  | cons p t ih =>
    obtain ⟨k₀, v₀⟩ := p
    by_cases h0 : k₀ = k
    · subst h0
      simp [setItem, dlookup, hk]
    · simp [setItem, dlookup, h0, ih]

/-- Lookup after `popItem` at a different key is unchanged. -/
theorem dlookup_popItem_ne (m : List (String × PyVal)) (k k' : String)
    (h : k' ≠ k) : dlookup (popItem m k) k' = dlookup m k' := by
  have hk : k ≠ k' := Ne.symm h
  induction m with
  | nil => simp [popItem]
  | cons p t ih =>
    obtain ⟨k₀, v₀⟩ := p
    by_cases h0 : k₀ = k
    · subst h0
      simp [popItem, dlookup, hk]
    · simp [popItem, dlookup, h0, ih]

/-- Lookup after an in-place append at the same key. -/
theorem dlookup_appendAtKey_self (m : List (String × PyVal)) (k : String) (v x : PyVal)
    (h : dlookup m k = some v) :
    dlookup (appendAtKey m k x) k = some (appendInto x v) := by
  simp [appendAtKey, h, dlookup_setItem_self]

/-- Lookup after an in-place append at a different key is unchanged. -/
theorem dlookup_appendAtKey_ne (m : List (String × PyVal)) (k k' : String) (x : PyVal)
    (h : k' ≠ k) : dlookup (appendAtKey m k x) k' = dlookup m k' := by
  unfold appendAtKey
  cases hm : dlookup m k with
  | none => rfl
  | some v => simp [dlookup_setItem_ne _ _ _ _ h]

/-- The child-loop step leaves the entries of other tags untouched. -/
theorem foldChild_dlookup_ne (m : List (String × PyVal)) (tag T : String)
    (tr : List (String × PyVal)) (h : tag ≠ T) :
    dlookup (foldChild m tag tr) T = dlookup m T := by
  have h' : T ≠ tag := fun hc => h hc.symm
  unfold foldChild
  by_cases hk : hasKey m tag
  · simp only [hk, if_true]
    cases hg : DotDict.getItem m tag with
    | none => rfl
    | some old =>
      by_cases hl : old.isList
      · simp [hl, dlookup_appendAtKey_ne _ _ _ _ h']
      · simp [hl, dlookup_appendAtKey_ne _ _ _ _ h',
          dlookup_setItem_ne _ _ _ _ h', dlookup_popItem_ne _ _ _ h']
  · simp [hk, dlookup_setItem_ne _ _ _ _ h']

/-- First occurrence of a tag: the child tree is stored directly. -/
theorem foldChild_dlookup_absent (m : List (String × PyVal)) (T : String)
    (tr : List (String × PyVal)) (h : dlookup m T = none) :
    dlookup (foldChild m T tr) T = some (.pdot tr) := by
  simp [foldChild, hasKey, h, dlookup_setItem_self]

/-- Second occurrence of a tag whose stored entry is a (non-sequence-reading)
`DotDict`: the collapsed read of the old entry is promoted into a
one-element list and the new child tree appended. -/
theorem foldChild_dlookup_promote (m : List (String × PyVal)) (T : String)
    (tr e : List (String × PyVal)) (h : dlookup m T = some (.pdot e))
    (hl : (DotDict.valueOrNode (.pdot e)).isList = false) :
    dlookup (foldChild m T tr) T
      = some (.plist [DotDict.valueOrNode (.pdot e), .pdot tr]) := by
  have hk : hasKey m T = true := by simp [hasKey, h]
  have hg : DotDict.getItem m T = some (DotDict.valueOrNode (.pdot e)) := by
    simp [DotDict.getItem, h]
  have hset : dlookup (setItem (popItem m T) T (.plist [DotDict.valueOrNode (.pdot e)])) T
      = some (.plist [DotDict.valueOrNode (.pdot e)]) := dlookup_setItem_self _ _ _
  simp [foldChild, hk, hg, hl, dlookup_appendAtKey_self _ _ _ _ hset, appendInto]

/-- Later occurrences of a tag: the stored list gets the new child tree
appended at the end. -/
theorem foldChild_dlookup_append (m : List (String × PyVal)) (T : String)
    (tr : List (String × PyVal)) (l : List PyVal) (h : dlookup m T = some (.plist l)) :
    dlookup (foldChild m T tr) T = some (.plist (l ++ [.pdot tr])) := by
  have hk : hasKey m T = true := by simp [hasKey, h]
  have hg : DotDict.getItem m T = some (.plist l) := by
    simp [DotDict.getItem, h, DotDict.valueOrNode]
  simp [foldChild, hk, hg, PyVal.isList, dlookup_appendAtKey_self _ _ _ _ h, appendInto]

/-- Child trees carrying tag `T` (after the namespace split), in document
order: these are the occurrences the child loop merges under key `T`. -/
def treesOf (T : String) (cts : List (String × List (String × PyVal))) :
    List (List (String × PyVal)) :=
  (cts.filter (fun ct => ct.1 = T)).map Prod.snd

/-- The sequence the child loop builds from `n ≥ 1` same-tag child trees:
the first tree enters via the collapsing `old = node_tree[tag]` read, every
later tree is appended as the full `DotDict`. -/
def mkSeq : List (List (String × PyVal)) → List PyVal
  | [] => []
  | h :: t => DotDict.valueOrNode (.pdot h) :: t.map .pdot

/-- The value stored under a tag after merging the given same-tag child
trees: nothing for zero occurrences, the tree itself for one, and the
promoted sequence from two occurrences on. -/
def seqVal : List (List (String × PyVal)) → Option PyVal
  | [] => none
  | [h] => some (.pdot h)
  | h :: h2 :: t => some (.plist (mkSeq (h :: h2 :: t)))

theorem mkSeq_length (l : List (List (String × PyVal))) : (mkSeq l).length = l.length := by
  cases l <;> simp [mkSeq]

/-- Invariant of the child loop with respect to one tag `T`: if the entry
under `T` currently reflects the already-merged occurrences `pre`, then
after folding the remaining children it reflects `pre` extended by the
further occurrences of `T`, provided the overall first occurrence does not
collapse to a list under the `DotDict` read. -/
theorem childFold_dlookup (T : String) (cts : List (String × List (String × PyVal))) :
    ∀ (acc : List (String × PyVal)) (pre : List (List (String × PyVal))),
      dlookup acc T = seqVal pre →
      (∀ h t, pre ++ treesOf T cts = h :: t → (DotDict.valueOrNode (.pdot h)).isList = false) →
      dlookup (childFold acc cts) T = seqVal (pre ++ treesOf T cts) := by
  induction cts with
  | nil =>
    intro acc pre hacc _
    simpa [childFold, treesOf] using hacc
  | cons ct cts ih =>
    intro acc pre hacc hfirst
    obtain ⟨t', tr'⟩ := ct
    have hstep : childFold acc ((t', tr') :: cts) = childFold (foldChild acc t' tr') cts := rfl
    by_cases ht : t' = T
    · subst ht
      have htrees : treesOf t' ((t', tr') :: cts) = tr' :: treesOf t' cts := by
        simp [treesOf]
      rw [hstep, htrees]
      cases pre with
      | nil =>
        have h1 : dlookup (foldChild acc t' tr') t' = seqVal [tr'] := by
          simpa [seqVal] using foldChild_dlookup_absent acc t' tr' (by simpa [seqVal] using hacc)
        have := ih (foldChild acc t' tr') [tr'] h1 (by
          intro h t heq
          exact hfirst h t (by simpa [htrees] using heq))
        simpa using this
      | cons p ps =>
        cases ps with
        | nil =>
          have hp : (DotDict.valueOrNode (.pdot p)).isList = false := by
            apply hfirst p (tr' :: treesOf t' cts)
            simp [htrees]
          have h1 : dlookup (foldChild acc t' tr') t' = seqVal [p, tr'] := by
            have := foldChild_dlookup_promote acc t' tr' p (by simpa [seqVal] using hacc) hp
            simpa [seqVal, mkSeq] using this
          have := ih (foldChild acc t' tr') [p, tr'] h1 (by
            intro h t heq
            apply hfirst h t
            rw [htrees]
            simpa using heq)
          simpa using this
        | cons p2 pt =>
          have h1 : dlookup (foldChild acc t' tr') t' = seqVal ((p :: p2 :: pt) ++ [tr']) := by
            have := foldChild_dlookup_append acc t' tr' (mkSeq (p :: p2 :: pt))
              (by simpa [seqVal] using hacc)
            rw [this]
            simp [seqVal, mkSeq, List.map_append]
          have := ih (foldChild acc t' tr') ((p :: p2 :: pt) ++ [tr']) h1 (by
            intro h t heq
            apply hfirst h t
            rw [htrees]
            simpa using heq)
          simpa using this
    · have htrees : treesOf T ((t', tr') :: cts) = treesOf T cts := by
        simp [treesOf, ht]
      rw [hstep, htrees]
      exact ih (foldChild acc t' tr') pre
        (by rw [foldChild_dlookup_ne acc t' T tr' ht]; exact hacc)
        (by rw [← htrees] at *; intro h t heq; exact hfirst h t (by simpa [htrees] using heq))

/-- The merged value under a tag is the promoted sequence as soon as at
least two occurrences were folded. -/
theorem seqVal_of_two (l : List (List (String × PyVal))) (h : 2 ≤ l.length) :
    seqVal l = some (.plist (mkSeq l)) := by
  match l with
  | [] => simp at h
  | [a] => simp at h
  | a :: b :: t => rfl

/-- Claim C2 (amended).  For every element in whose child list the
(namespace-split) tag `T` occurs at least twice, provided `T` does not
collide with a key already produced by the text/attribute folding and the
first occurrence's collapsed read is not itself a sequence, the value stored
under `T` is a Python list whose length equals the occurrence count and
whose entries follow document order — the first entry being the collapsed
`DotDict.__getitem__` read of the first occurrence's tree, each later entry
the occurrence's tree itself, appended in turn. -/
theorem parse_node_repeated_siblings (tag : String) (attrib : List (String × String))
    (text : Option String) (children : XElemList) (T : String)
    (hpre : dlookup (preChildTree attrib text) T = none)
    (h2 : 2 ≤ (treesOf T (parseChildren children)).length)
    (hfirst : ∀ h t, treesOf T (parseChildren children) = h :: t →
      (DotDict.valueOrNode (.pdot h)).isList = false) :
    dlookup (XML2Dict.parse_node (.mk tag attrib text children)) T
      = some (.plist (mkSeq (treesOf T (parseChildren children))))
    ∧ (mkSeq (treesOf T (parseChildren children))).length
      = (treesOf T (parseChildren children)).length := by
  have hbase : dlookup (preChildTree attrib text) T = seqVal [] := by simpa [seqVal] using hpre
  have hmain := childFold_dlookup T (parseChildren children) (preChildTree attrib text) [] hbase
    (by intro h t heq; exact hfirst h t (by simpa using heq))
  have hunfold : XML2Dict.parse_node (.mk tag attrib text children)
      = childFold (preChildTree attrib text) (parseChildren children) := rfl
  rw [hunfold, hmain]
  simp only [List.nil_append]
  exact ⟨seqVal_of_two _ h2, mkSeq_length _⟩

/-- Claim C2, witness: `<r><b>1</b><b>2</b></r>` stores under `b` a list of
length two in document order (first entry collapsed to the raw text). -/
theorem parse_node_repeated_siblings_witness :
    dlookup (XML2Dict.parse_node (.mk "r" [] none
        (.cons (.mk "b" [] (some "1") .nil) (.cons (.mk "b" [] (some "2") .nil) .nil)))) "b"
      = some (.plist [.pstr "1", .pdot [("value", .pstr "2")]]) :=
  (parse_node_repeated_siblings "r" [] none
    (.cons (.mk "b" [] (some "1") .nil) (.cons (.mk "b" [] (some "2") .nil) .nil)) "b"
    rfl (by decide)
    (by
      intro h t heq
      have hocc : treesOf "b" (parseChildren (.cons (.mk "b" [] (some "1") .nil)
          (.cons (.mk "b" [] (some "2") .nil) .nil)))
          = [[("value", PyVal.pstr "1")], [("value", PyVal.pstr "2")]] := rfl
      rw [hocc] at heq
      injection heq with e1 e2
      subst e1
      rfl)).1

/-- Claim C2, counterexample to the unconditional statement: in
`<r b="x"><b>1</b><b>2</b></r>` the tag `b` occurs twice as a child, yet the
sequence stored under `b` has length three — the attribute `b="x"` was
already folded under the same key and its collapsed value got promoted into
the list alongside the two children. -/
theorem parse_node_repeated_siblings_cex :
    dlookup (XML2Dict.parse_node (.mk "r" [("b", "x")] none
        (.cons (.mk "b" [] (some "1") .nil) (.cons (.mk "b" [] (some "2") .nil) .nil)))) "b"
      = some (.plist [.pstr "x", .pdot [("value", .pstr "1")], .pdot [("value", .pstr "2")]])
    ∧ (treesOf "b" (parseChildren (.cons (.mk "b" [] (some "1") .nil)
        (.cons (.mk "b" [] (some "2") .nil) .nil)))).length = 2
    ∧ ([PyVal.pstr "x", PyVal.pdot [("value", PyVal.pstr "1")],
        PyVal.pdot [("value", PyVal.pstr "2")]] : List PyVal).length = 3 :=
  ⟨rfl, rfl, rfl⟩

/-- Claim C1 (amended).  Reading a key whose stored value is a `DotDict`
with exactly the single key `value` returns the recursive collapse of the
inner value: the unwrapping re-applies at every level, because
`_value_or_node` returns `node["value"]`, which re-enters
`DotDict.__getitem__`.  In particular the collapse is not capped at one
level per read. -/
theorem dotdict_getitem_collapse_recursive (m : List (String × PyVal)) (key : String)
    (v : PyVal) (h : dlookup m key = some (.pdot [("value", v)])) :
    DotDict.getItem m key = some (DotDict.valueOrNode v)
    ∧ DotDict.valueOrNode (.pdot [("value", v)]) = DotDict.valueOrNode v := by
  refine ⟨?_, rfl⟩
  simp [DotDict.getItem, h]
  rfl

/-- Claim C1, witness: reading a doubly wrapped value collapses both
levels. -/
theorem dotdict_getitem_collapse_recursive_witness :
    DotDict.getItem [("a", .pdot [("value", .pdot [("value", .pstr "x")])])] "a"
      = some (.pstr "x") :=
  (dotdict_getitem_collapse_recursive
    [("a", .pdot [("value", .pdot [("value", .pstr "x")])])]
    "a" (.pdot [("value", .pstr "x")]) rfl).1

/-- Claim C1, counterexample to the one-level-deep reading: for the stored
value `{"value": {"value": "x"}}` the key read returns the raw `"x"`, not
the inner single-`value` node the claim predicts. -/
theorem dotdict_getitem_depth_cex :
    DotDict.getItem [("a", .pdot [("value", .pdot [("value", .pstr "x")])])] "a"
      = some (.pstr "x")
    ∧ some (PyVal.pstr "x") ≠ some (PyVal.pdot [("value", PyVal.pstr "x")]) :=
  ⟨rfl, by simp⟩

/-- The local tag returned by `_namespace_split` ignores the value
argument. -/
theorem namespace_split_fst (k : String) (val : List (String × PyVal)) :
    (XML2Dict.namespace_split k val).1 = localName k := by
  unfold XML2Dict.namespace_split localName
  cases h : nsSplit k with
  | none => rfl
  | some p => obtain ⟨ns, t⟩ := p; rfl

/-- A tag with no namespace wrapper is filed under itself with the value
untouched. -/
theorem namespace_split_none (k : String) (val : List (String × PyVal))
    (h : nsSplit k = none) : XML2Dict.namespace_split k val = (k, val) := by
  simp [XML2Dict.namespace_split, h]

/-- A namespaced attribute value becomes the two-key node with the
`namespace` entry appended after `value`. -/
theorem namespace_split_some (k ns t v : String) (h : nsSplit k = some (ns, t)) :
    XML2Dict.namespace_split k [("value", .pstr v)]
      = (t, [("value", .pstr v), ("namespace", .pstr ns)]) := by
  simp [XML2Dict.namespace_split, h, setItem]

theorem localName_none (k : String) (h : nsSplit k = none) : localName k = k := by
  simp [localName, h]

theorem localName_some (k ns t : String) (h : nsSplit k = some (ns, t)) :
    localName k = t := by
  simp [localName, h]

/-- The attribute fold splits over list append. -/
theorem attrFold_append (init : List (String × PyVal)) (a b : List (String × String)) :
    attrFold init (a ++ b) = attrFold (attrFold init a) b := by
  simp [attrFold, List.foldl_append]

/-- One step of the attribute fold. -/
theorem attrFold_cons (init : List (String × PyVal)) (k v : String)
    (rest : List (String × String)) :
    attrFold init ((k, v) :: rest)
      = attrFold (setItem init (XML2Dict.namespace_split k [("value", .pstr v)]).1
          (.pdot (XML2Dict.namespace_split k [("value", .pstr v)]).2)) rest := rfl

/-- Attributes whose local name differs from `L` leave the entry at `L`
unchanged. -/
theorem attrFold_dlookup_nomatch (post : List (String × String)) (L : String) :
    ∀ (m : List (String × PyVal)), (∀ kv ∈ post, localName kv.1 ≠ L) →
      dlookup (attrFold m post) L = dlookup m L := by
  induction post with
  | nil => intro m _; rfl
  | cons kv rest ih =>
    intro m hp
    obtain ⟨k, v⟩ := kv
    rw [attrFold_cons, ih _ (fun kv' h' => hp kv' (List.mem_cons_of_mem _ h')),
      namespace_split_fst]
    exact dlookup_setItem_ne _ _ _ _ (Ne.symm (hp (k, v) (List.mem_cons_self _ _)))

/-- Children whose split tag differs from `L` leave the entry at `L`
unchanged. -/
theorem childFold_dlookup_nomatch (cts : List (String × List (String × PyVal)))
    (L : String) :
    ∀ (acc : List (String × PyVal)), (∀ ct ∈ cts, ct.1 ≠ L) →
      dlookup (childFold acc cts) L = dlookup acc L := by
  induction cts with
  | nil => intro acc _; rfl
  | cons ct rest ih =>
    intro acc hc
    have hstep : childFold acc (ct :: rest) = childFold (foldChild acc ct.1 ct.2) rest := rfl
    rw [hstep, ih _ (fun ct' h' => hc ct' (List.mem_cons_of_mem _ h'))]
    exact foldChild_dlookup_ne _ _ _ _ (hc ct (List.mem_cons_self _ _))

/-- The attribute loop stores, under the local name of the attribute
`(k, v)`, the wrapped node `_namespace_split` built from
`DotDict({"value": v})` — for any element, any text, any surrounding
attributes (provided no later attribute maps to the same local name, which
would overwrite the entry) and any children whose split tags avoid that name
(a same-named child would promote the entry, see claim C2). -/
theorem parse_node_attr_stored (tag k v : String)
    (attrib pre post : List (String × String)) (text : Option String)
    (children : XElemList)
    (hsplit : attrib = pre ++ (k, v) :: post)
    (hpost : ∀ kv ∈ post, localName kv.1 ≠ localName k)
    (hchild : ∀ ct ∈ parseChildren children, ct.1 ≠ localName k) :
    dlookup (XML2Dict.parse_node (.mk tag attrib text children)) (localName k)
      = some (.pdot (XML2Dict.namespace_split k [("value", .pstr v)]).2) := by
  subst hsplit
  have h0 : XML2Dict.parse_node (.mk tag (pre ++ (k, v) :: post) text children)
      = childFold (preChildTree (pre ++ (k, v) :: post) text) (parseChildren children) := rfl
  rw [h0, childFold_dlookup_nomatch _ _ _ hchild]
  unfold preChildTree
  rw [attrFold_append, attrFold_cons, attrFold_dlookup_nomatch _ _ _ hpost,
    namespace_split_fst]
  exact dlookup_setItem_self _ _ _

/-- Claim C3 (amended).  For every XML element and every attribute `(k, v)`
of it (the last one mapping to its local name, with no same-named child
tag), the value physically stored under the (namespace-stripped) local
attribute name is the wrapping node `DotDict({"value": v})` — carrying an
additional `namespace` key when the attribute name had a `\x7buri\x7d`
wrapper — not the plain string; the collapsing `DotDict.__getitem__` read
returns the raw string `v` in the namespace-free case, while the namespaced
two-key node comes back uncollapsed. -/
theorem parse_node_attr_wrapped (tag k v : String)
    (attrib pre post : List (String × String)) (text : Option String)
    (children : XElemList)
    (hsplit : attrib = pre ++ (k, v) :: post)
    (hpost : ∀ kv ∈ post, localName kv.1 ≠ localName k)
    (hchild : ∀ ct ∈ parseChildren children, ct.1 ≠ localName k) :
    (nsSplit k = none →
      dlookup (XML2Dict.parse_node (.mk tag attrib text children)) k
        = some (.pdot [("value", .pstr v)])
      ∧ DotDict.getItem (XML2Dict.parse_node (.mk tag attrib text children)) k
        = some (.pstr v))
    ∧ (∀ ns t, nsSplit k = some (ns, t) →
      dlookup (XML2Dict.parse_node (.mk tag attrib text children)) t
        = some (.pdot [("value", .pstr v), ("namespace", .pstr ns)])
      ∧ DotDict.getItem (XML2Dict.parse_node (.mk tag attrib text children)) t
        = some (.pdot [("value", .pstr v), ("namespace", .pstr ns)])) := by
  have hc := parse_node_attr_stored tag k v attrib pre post text children hsplit hpost hchild
  constructor
  · intro hns
    rw [localName_none k hns, namespace_split_none k _ hns] at hc
    refine ⟨hc, ?_⟩
    unfold DotDict.getItem
    rw [hc]
    rfl
  · intro ns t hns
    rw [localName_some k ns t hns, namespace_split_some k ns t v hns] at hc
    refine ⟨hc, ?_⟩
    unfold DotDict.getItem
    rw [hc]
    rfl

/-- Claim C3, witness: the attribute `k="v"` of `<r k="v"/>` is physically
stored wrapped, and its namespaced variant keeps the two-key node on
read-back, uncollapsed. -/
theorem parse_node_attr_wrapped_witness :
    dlookup (XML2Dict.parse_node (.mk "r" [("k", "v")] none .nil)) "k"
      = some (.pdot [("value", .pstr "v")])
    ∧ DotDict.getItem (XML2Dict.parse_node
        (.mk "r" [("\x7burn:n\x7dk", "v")] none .nil)) "k"
      = some (.pdot [("value", .pstr "v"), ("namespace", .pstr "urn:n")]) :=
  ⟨((parse_node_attr_wrapped "r" "k" "v" [("k", "v")] [] [] none .nil rfl
      (by intro kv h; exact absurd h (List.not_mem_nil kv))
      (by intro ct h; exact absurd h (List.not_mem_nil ct))).1 rfl).1,
   ((parse_node_attr_wrapped "r" "\x7burn:n\x7dk" "v" [("\x7burn:n\x7dk", "v")] [] []
      none .nil rfl
      (by intro kv h; exact absurd h (List.not_mem_nil kv))
      (by intro ct h; exact absurd h (List.not_mem_nil ct))).2 "urn:n" "k" rfl).2⟩

/-- Claim C3, counterexample to "stored as plain string": the value
physically stored under the attribute name is the wrapping single-`value`
node, which is not the raw string. -/
theorem parse_node_attr_plain_cex :
    dlookup (XML2Dict.parse_node (.mk "r" [("k", "v")] none .nil)) "k"
      = some (.pdot [("value", .pstr "v")])
    ∧ (PyVal.pdot [("value", PyVal.pstr "v")]) ≠ .pstr "v" :=
  ⟨rfl, by simp⟩

/-- Claim C4 (amended).  Whenever construction succeeds, `original` returns
the text the constructor worked with: the input string unchanged for text
input, but the `iso-8859-1`-decoded string — not the incoming bytes object —
for bytes input, because `self._original = xml` runs after the reassignment
`xml = xml.decode("iso-8859-1")`. -/
theorem dictwrapper_original_decoded (xml : Sum (List Nat) String) (rk : Option String)
    (w : DictWrapper) (h : DictWrapper.init xml rk = some w) :
    w.original = .inr (decodedOf xml) := by
  dsimp [DictWrapper.init] at h
  cases hf : XML2Dict.fromstring (remove_xml_namespace (decodedOf xml)) with
  | none => rw [hf] at h; exact absurd h (by simp)
  | some md =>
    rw [hf] at h
    injection h with h2
    rw [← h2]

/-- Claim C4, witness: constructing from the bytes of `<a>x</a>` stores the
decoded string as `original`. -/
theorem dictwrapper_original_decoded_witness :
    (⟨.inr "<a>x</a>", .pstr "x", none⟩ : DictWrapper).original = Sum.inr "<a>x</a>" :=
  dictwrapper_original_decoded (.inl [60, 97, 62, 120, 60, 47, 97, 62]) none
    ⟨.inr "<a>x</a>", .pstr "x", none⟩ rfl

/-- Claim C4, counterexample to "for bytes input, the same bytes object":
constructed from the bytes of `<a>x</a>`, `original` is the decoded string
value, which is not the bytes value that was passed in. -/
theorem dictwrapper_original_bytes_cex :
    (DictWrapper.init (.inl [60, 97, 62, 120, 60, 47, 97, 62]) none).map DictWrapper.original
      = some (.inr "<a>x</a>")
    ∧ (Sum.inr "<a>x</a>" : Sum (List Nat) String) ≠ .inl [60, 97, 62, 120, 60, 47, 97, 62] :=
  ⟨rfl, by simp⟩

/-- Claim C5.  `DataWrapper` construction raises the checksum `MWSError` if
and only if the headers hold a `content-md5` entry whose (encoded) value
differs from the computed digest of the payload; on success — header absent
or matching — `parsed` returns the original bytes unchanged.  The digest
function (`calc_md5`, from `mws/utils/crypto.py`, not under `src/`) and the
header-value encoding enter only through the disequality test, so both are
quantified. -/
theorem datawrapper_checksum_iff (md5 : List Nat → List Nat) (enc : String → List Nat)
    (data : List Nat) (headers : List (String × String)) :
    ((∃ e, DataWrapper.init md5 enc data headers = .error e) ↔
      (∃ v, dlookup headers "content-md5" = some v ∧ enc v ≠ md5 data))
    ∧ (∀ w, DataWrapper.init md5 enc data headers = .ok w → w.parsed = data) := by
  unfold DataWrapper.init
  cases hl : dlookup headers "content-md5" with
  | none =>
    refine ⟨⟨?_, ?_⟩, ?_⟩
    · rintro ⟨e, he⟩; exact absurd he (by simp)
    · rintro ⟨v, hv, _⟩; exact absurd hv (by simp)
    · intro w hw; injection hw with h2; rw [← h2]; rfl
  | some v =>
    dsimp only
    by_cases hv : enc v ≠ md5 data
    · refine ⟨⟨?_, ?_⟩, ?_⟩
      · intro _; exact ⟨v, rfl, hv⟩
      · intro _; simp only [if_pos hv]; exact ⟨_, rfl⟩
      · intro w hw; rw [if_pos hv] at hw; exact absurd hw (by simp)
    · refine ⟨⟨?_, ?_⟩, ?_⟩
      · rintro ⟨e, he⟩; rw [if_neg hv] at he; exact absurd he (by simp)
      · rintro ⟨v', hv', hne⟩
        injection hv' with hveq
        exact absurd (hveq ▸ hne) hv
      · intro w hw; rw [if_neg hv] at hw; injection hw with h2; rw [← h2]; rfl

/-- Claim C5, witness: with a matching digest the construction succeeds and
`parsed` hands back the payload bytes. -/
theorem datawrapper_checksum_iff_witness :
    DataWrapper.parsed ⟨[109, 119, 115], [("content-md5", "ok")]⟩ = [109, 119, 115] :=
  (datawrapper_checksum_iff (fun _ => []) (fun _ => []) [109, 119, 115]
    [("content-md5", "ok")]).2 ⟨[109, 119, 115], [("content-md5", "ok")]⟩ rfl

/-- Claim C6.  With a `content-type` header equal to `application/zip`,
`unzipped` returns the archive handle produced by the extraction, or raises
`MWSError` wrapping the extraction failure; with any other `content-type`
value it returns `None` and raises nothing.  The extraction itself
(`zipfile.ZipFile` plus `extractall`, stdlib, with its working-directory
side effect) is abstracted as the function `extract`. -/
theorem datawrapper_unzipped_spec {Z : Type} (extract : List Nat → Except String Z)
    (w : DataWrapper) (ct : String) (hct : dlookup w.headers "content-type" = some ct) :
    ((ct = "application/zip" →
      (∀ z, extract w.original = .ok z → w.unzipped extract = .ok (some z))
      ∧ (∀ msg, extract w.original = .error msg →
          w.unzipped extract = .error (.mwsError msg)))
    ∧ (ct ≠ "application/zip" → w.unzipped extract = .ok none)) := by
  unfold DataWrapper.unzipped
  rw [hct]
  constructor
  · rintro rfl
    constructor
    · intro z hz; simp [hz]
    · intro msg hm; simp [hm]
  · intro hne; simp [hne]

/-- Claim C6, witness: a zip-typed payload with a succeeding extraction
yields the archive handle. -/
theorem datawrapper_unzipped_spec_witness :
    DataWrapper.unzipped ⟨[0], [("content-type", "application/zip")]⟩
      (fun _ => Except.ok (0 : Nat)) = Except.ok (some 0) :=
  ((datawrapper_unzipped_spec (fun _ => Except.ok (0 : Nat))
      ⟨[0], [("content-type", "application/zip")]⟩ "application/zip" rfl).1 rfl).1 0 rfl

/-- Claim C10.  When the headers hold no `content-type` key at all, the
subscript `self.headers["content-type"]` raises `KeyError` before any
content-type comparison happens, so `unzipped` fails instead of returning
the `None` result — unlike the tolerated absence of `content-md5`. -/
theorem datawrapper_unzipped_missing_header {Z : Type}
    (extract : List Nat → Except String Z) (w : DataWrapper)
    (h : dlookup w.headers "content-type" = none) :
    w.unzipped extract = .error (.keyError "content-type") := by
  unfold DataWrapper.unzipped
  rw [h]

/-- Claim C10, witness: empty headers make `unzipped` raise the
`KeyError`. -/
theorem datawrapper_unzipped_missing_header_witness :
    DataWrapper.unzipped ⟨[], []⟩ (fun _ => Except.ok (0 : Nat))
      = Except.error (.keyError "content-type") :=
  datawrapper_unzipped_missing_header (fun _ => Except.ok (0 : Nat)) ⟨[], []⟩ rfl

/-- Claim C7.  Stripping namespaces from
`<a xmlns="urn:x"><ns2:b>1</ns2:b></a>` and parsing yields exactly the tree
parsed from `<a><b>1</b></a>`: the `xmlns` declaration and both `ns2:`
prefix occurrences (opening and closing tag) disappear textually before the
parse, and the resulting tree is the expected `{"a": {"b": {"value":
"1"}}}`. -/
theorem namespace_strip_parse_equiv :
    XML2Dict.fromstring (remove_xml_namespace "<a xmlns=\"urn:x\"><ns2:b>1</ns2:b></a>")
      = XML2Dict.fromstring "<a><b>1</b></a>"
    ∧ remove_xml_namespace "<a xmlns=\"urn:x\"><ns2:b>1</ns2:b></a>" = "<a><b>1</b></a>"
    ∧ XML2Dict.fromstring "<a><b>1</b></a>"
      = some [("a", .pdot [("b", .pdot [("value", .pstr "1")])])] :=
  ⟨rfl, rfl, rfl⟩

/-- Claim C8.  Iterating a lone `DotDict` node yields exactly one item, and
that item is the node itself — not an unwrapped or collapsed view of it — so
a single node and a parser-produced sibling list iterate uniformly. -/
theorem dotdict_iter_single (m : List (String × PyVal)) :
    DotDict.iter (.pdot m) = [.pdot m] ∧ (DotDict.iter (.pdot m)).length = 1 :=
  ⟨rfl, rfl⟩
